import Mathlib

/-!
Verification of the Chim Non cup-manager dashboard (src/app.py).

The development shallowly embeds the data model and the pure computational
parts of the application: the standings engine `compute_standings` with its
head-to-head comparator, the fair-play calculator `compute_fairplay`, the
card-fine computation of the statistics tab, the knockout slot resolver
`resolve_slot`, the Google-Drive link normalizer `_normalize_drive_url`,
and the worksheet loader `load_worksheet_df`.

Modelling conventions:
- a pandas DataFrame is a list of typed records plus per-table flags
  recording which optional columns are present;
- a numeric cell that may be absent or non-numeric (pandas `to_numeric`
  with coerce followed by `int`) is an `Option Int`;
- Python `str.strip` and `str.lower` are modelled on the character list of
  the string (`lower`, `upper` are exact on ASCII data);
- Python dicts built by repeated assignment are modelled as functions
  updated pointwise (later assignments win, `get` defaults are explicit);
- Python `sorted` with a comparator key is modelled by the stable
  `List.insertionSort`, which agrees with CPython for every comparator
  that is a strict weak order (the output of a stable sort is then unique);
- pandas `set_index/.loc/.at` label lookups are modelled by first-match
  lookup, exact when the team-id index is duplicate-free.
-/

namespace ChimNon

/-! ## Python string primitives -/

/-- Python `str.strip()`: drop whitespace from both ends. -/
def pyStrip (s : String) : String :=
  ⟨((s.data.dropWhile Char.isWhitespace).reverse.dropWhile Char.isWhitespace).reverse⟩

/-- Python `str.lower()` (exact on ASCII characters). -/
def pyLower (s : String) : String :=
  ⟨s.data.map Char.toLower⟩

/-- Python `str.upper()` (exact on ASCII characters). -/
def pyUpper (s : String) : String :=
  ⟨s.data.map Char.toUpper⟩

/-- The suffix of `hay` strictly after the first occurrence of `needle`,
or `none` when `needle` does not occur.  Implements the slicing pattern
`hay.split(needle)[1]` together with the membership test `needle in hay`. -/
def subAfter (needle : List Char) : List Char → Option (List Char)
  | [] => if needle.isPrefixOf ([] : List Char) then some [] else none
  | c :: rest =>
    if needle.isPrefixOf (c :: rest) then some (List.drop needle.length (c :: rest))
    else subAfter needle rest

/-- Python substring test `needle in hay` (for a non-empty needle). -/
def pyIn (needle hay : String) : Bool :=
  (subAfter needle.data hay.data).isSome

/-- Python `s.split(sep)[0]` for a one-character separator: the prefix of
`s` up to the first occurrence of `sep`. -/
def upToChar (sep : Char) (l : List Char) : List Char :=
  l.takeWhile (fun c => c ≠ sep)

/-- Helper for Python `str.split()`: split into maximal runs of
non-whitespace characters. -/
def pyWordsAux : List Char → List Char → List (List Char)
  | [], acc => if acc.isEmpty then [] else [acc.reverse]
  | c :: rest, acc =>
    if c.isWhitespace then
      if acc.isEmpty then pyWordsAux rest [] else acc.reverse :: pyWordsAux rest []
    else pyWordsAux rest (c :: acc)

/-- Python `str.split()` with no separator: whitespace-delimited words. -/
def pyWords (s : String) : List String :=
  (pyWordsAux s.data []).map (fun w => ⟨w⟩)

/-! ## Data model (§3 of the spec, as read by src/app.py) -/

/-- One row of the `teams` worksheet (the columns the standings engine and
the resolvers read).  Cell values are kept verbatim; an absent cell reads
as the empty string, as `get_all_records` produces. -/
structure TeamRow where
  team_id : String
  team_name : String
  short_name : String
  deriving Repr, DecidableEq

/-- The `teams` worksheet: rows plus presence flags for the optional
display-name columns (pandas column presence is a table-level fact). -/
structure TeamsTable where
  hasTeamName : Bool
  hasShortName : Bool
  rows : List TeamRow
  deriving Repr, DecidableEq

/-- One row of the `matches` worksheet.  `home_goals`/`away_goals` hold the
result of `pd.to_numeric(..., errors="coerce")` followed by `int`: `none`
is an absent or non-numeric cell (NaN). -/
structure MatchRow where
  home_team_id : String
  away_team_id : String
  home_goals : Option Int
  away_goals : Option Int
  status : String
  match_id : String
  deriving Repr, DecidableEq

/-- The `matches` worksheet: rows plus a flag for the optional `status`
column and a flag recording whether the four required columns
(`home_team_id`, `away_team_id`, `home_goals`, `away_goals`) are present. -/
structure MatchesTable where
  hasStatus : Bool
  hasRequired : Bool
  rows : List MatchRow
  deriving Repr, DecidableEq

/-- One row of the `events` worksheet (the columns the calculators read). -/
structure EventRow where
  team_id : String
  event_type : String
  player_id : String
  match_id : String
  deriving Repr, DecidableEq

/-! ## Fair-play calculator (`compute_fairplay`, src/app.py lines 105-129) -/

/-- The fair-play points added for one event type (the `add` cascade of
`compute_fairplay`). -/
def fairplayAdd (et : String) : Int :=
  if et = "yellow" then 1
  else if et = "second_yellow" then 3
  else if et = "red" then 3
  else if et = "yellow_plus_direct_red" then 4
  else 0

/-- Model of `compute_fairplay`: per-team fair-play totals.  The returned function
is the dict `pts` read through `pts.get(team, 0)` (the only way the code
consumes it).  An empty event list yields the constant-zero map, matching
the `{}` early return. -/
def compute_fairplay (events : List EventRow) : String → Int :=
  events.foldl
    (fun pts e =>
      let team := pyStrip e.team_id
      let et := pyLower (pyStrip e.event_type)
      if team = "" then pts
      else fun t => if t = team then pts t + fairplayAdd et else pts t)
    (fun _ => 0)

/-! ## Standings engine (`compute_standings`, src/app.py lines 131-361) -/

/-- The finished-status vocabulary of the standings engine. -/
def FINISHED : List String :=
  ["finished", "kết thúc", "ket thuc", "done", "ft"]

/-- The `played_mask` of `compute_standings`: with a `status` column the
normalized status must be in `FINISHED` and both goal cells must be
numeric; without one, only the goal cells are tested. -/
def isPlayed (hasStatus : Bool) (m : MatchRow) : Bool :=
  (if hasStatus then FINISHED.contains (pyLower (pyStrip m.status)) else true)
    && m.home_goals.isSome && m.away_goals.isSome

/-- A played match after the per-row extraction of the accumulation loop:
stripped team ids and integer goals (`h`, `a`, `hg`, `ag` in the source). -/
structure PlayedM where
  h : String
  a : String
  hg : Int
  ag : Int
  deriving Repr, DecidableEq

/-- Extraction of one played row (`str(...).strip()` on the ids, `int(...)`
on the goals; the goals are present by `isPlayed`). -/
def toPlayed (m : MatchRow) : PlayedM :=
  ⟨pyStrip m.home_team_id, pyStrip m.away_team_id,
   m.home_goals.getD 0, m.away_goals.getD 0⟩

/-- Model of `m_played` in `compute_standings`, already extracted (the accumulation
loop and the head-to-head table `m_h2h` both read exactly these fields). -/
def playedOf (mtab : MatchesTable) : List PlayedM :=
  (mtab.rows.filter (isPlayed mtab.hasStatus)).map toPlayed

/-- The per-team counter record `stats[team]` of `compute_standings`. -/
structure Stats where
  P : Nat
  W : Nat
  D : Nat
  L : Nat
  GF : Int
  GA : Int
  GD : Int
  deriving Repr, DecidableEq

/-- The zero counters installed by `ensure` and used as `stats.get` default. -/
def Stats.zero : Stats := ⟨0, 0, 0, 0, 0, 0, 0⟩

/-- The two dicts of the accumulation loop, read through their `get`
defaults (`points.get(tid, 0)` and `stats.get(tid, zeros)`). -/
structure Acc where
  points : String → Int
  stats : String → Stats

/-- Pointwise update of the `stats` dict at key `k`. -/
def upd (f : String → Stats) (k : String) (g : Stats → Stats) : String → Stats :=
  fun t => if t = k then g (f t) else f t

/-- Pointwise increment of the `points` dict at key `k`. -/
def updP (f : String → Int) (k : String) (d : Int) : String → Int :=
  fun t => if t = k then f t + d else f t

/-- One iteration of the accumulation loop of `compute_standings`
(lines 194-227): played count, goals, goal difference, then points and
win/draw/loss, with the same sequential dict updates as the source. -/
def applyMatch (acc : Acc) (m : PlayedM) : Acc :=
  let s := acc.stats
  let s := upd s m.h (fun x => { x with P := x.P + 1 })
  let s := upd s m.a (fun x => { x with P := x.P + 1 })
  let s := upd s m.h (fun x => { x with GF := x.GF + m.hg, GA := x.GA + m.ag })
  let s := upd s m.a (fun x => { x with GF := x.GF + m.ag, GA := x.GA + m.hg })
  let s := upd s m.h (fun x => { x with GD := x.GF - x.GA })
  let s := upd s m.a (fun x => { x with GD := x.GF - x.GA })
  if m.hg > m.ag then
    { points := updP acc.points m.h 3,
      stats := upd (upd s m.h (fun x => { x with W := x.W + 1 }))
                 m.a (fun x => { x with L := x.L + 1 }) }
  else if m.hg < m.ag then
    { points := updP acc.points m.a 3,
      stats := upd (upd s m.a (fun x => { x with W := x.W + 1 }))
                 m.h (fun x => { x with L := x.L + 1 }) }
  else
    { points := updP (updP acc.points m.h 1) m.a 1,
      stats := upd (upd s m.h (fun x => { x with D := x.D + 1 }))
                 m.a (fun x => { x with D := x.D + 1 }) }

/-- One output row of the standings table (the dict literal of lines
246-260): team id, display name, counters, points, fair-play. -/
structure StandingRow where
  teamId : String
  name : String
  P : Nat
  W : Nat
  D : Nat
  L : Nat
  GF : Int
  GA : Int
  GD : Int
  points : Int
  fairplay : Int
  deriving Repr, DecidableEq

/-- The display-name choice of lines 233-237: prefer `team_name`, else
`short_name`, else `team_id` (raw cell values). -/
def displayName (hasTeamName hasShortName : Bool) (tr : TeamRow) : String :=
  if hasTeamName then tr.team_name
  else if hasShortName then tr.short_name
  else tr.team_id

/-- The row-building loop of lines 240-260: one row per team of the input
table whose stripped `team_id` is non-empty, counters looked up with
zero defaults. -/
def buildRows (teams : TeamsTable) (acc : Acc) (fair : String → Int) :
    List StandingRow :=
  teams.rows.filterMap (fun tr =>
    let tid := pyStrip tr.team_id
    if tid = "" then none
    else some
      { teamId := tid
        name := displayName teams.hasTeamName teams.hasShortName tr
        P := (acc.stats tid).P
        W := (acc.stats tid).W
        D := (acc.stats tid).D
        L := (acc.stats tid).L
        GF := (acc.stats tid).GF
        GA := (acc.stats tid).GA
        GD := (acc.stats tid).GD
        points := acc.points tid
        fairplay := fair tid })

/-- The head-to-head accumulator (`pts1 ... gf2` of lines 288-290). -/
structure H2HAcc where
  pts1 : Int
  pts2 : Int
  gd1 : Int
  gd2 : Int
  gf1 : Int
  gf2 : Int
  deriving Repr, DecidableEq

/-- One iteration of the head-to-head loop (lines 292-318), branching on
whether `t1` is the home side of the mini-table match. -/
def h2hStep (t1 : String) (acc : H2HAcc) (m : PlayedM) : H2HAcc :=
  if m.h = t1 then
    { pts1 := acc.pts1 + (if m.hg > m.ag then 3 else if m.hg < m.ag then 0 else 1)
      pts2 := acc.pts2 + (if m.hg > m.ag then 0 else if m.hg < m.ag then 3 else 1)
      gd1 := acc.gd1 + (m.hg - m.ag)
      gd2 := acc.gd2 + (m.ag - m.hg)
      gf1 := acc.gf1 + m.hg
      gf2 := acc.gf2 + m.ag }
  else
    { pts1 := acc.pts1 + (if m.ag > m.hg then 3 else if m.ag < m.hg then 0 else 1)
      pts2 := acc.pts2 + (if m.ag > m.hg then 0 else if m.ag < m.hg then 3 else 1)
      gd1 := acc.gd1 + (m.ag - m.hg)
      gd2 := acc.gd2 + (m.hg - m.ag)
      gf1 := acc.gf1 + m.ag
      gf2 := acc.gf2 + m.hg }

/-- Model of `head_to_head` (lines 274-326): the mini-table of the played matches
directly between `t1` and `t2`, compared by points, then goal difference,
then goals-for; `1` puts `t1` above, `-1` below, `0` falls through. -/
def head_to_head (mh2h : List PlayedM) (t1 t2 : String) : Int :=
  let sub := mh2h.filter (fun m => (m.h == t1 && m.a == t2) || (m.h == t2 && m.a == t1))
  if sub.isEmpty then 0
  else
    let acc := sub.foldl (h2hStep t1) ⟨0, 0, 0, 0, 0, 0⟩
    if acc.pts1 ≠ acc.pts2 then (if acc.pts1 > acc.pts2 then 1 else -1)
    else if acc.gd1 ≠ acc.gd2 then (if acc.gd1 > acc.gd2 then 1 else -1)
    else if acc.gf1 ≠ acc.gf2 then (if acc.gf1 > acc.gf2 then 1 else -1)
    else 0

/-- Model of the lookup `by_id.at[a, col]`: label lookup in the built rows (exact for a
duplicate-free team-id column, the documented invariant). -/
def rowFor (rows : List StandingRow) (a : String) : StandingRow :=
  (rows.find? (fun r => r.teamId == a)).getD
    ⟨a, a, 0, 0, 0, 0, 0, 0, 0, 0, 0⟩

/-- The comparator `cmp` of lines 330-353: head-to-head first (negated,
because the sort is ascending), then season goal difference, goals-for,
fair-play (lower first) and finally the team id. -/
def cmpTeams (mh2h : List PlayedM) (rows : List StandingRow) (a b : String) : Int :=
  let hh := head_to_head mh2h a b
  if hh ≠ 0 then -hh
  else
    let gdA := (rowFor rows a).GD
    let gdB := (rowFor rows b).GD
    if gdA ≠ gdB then (if gdA > gdB then -1 else 1)
    else
      let gfA := (rowFor rows a).GF
      let gfB := (rowFor rows b).GF
      if gfA ≠ gfB then (if gfA > gfB then -1 else 1)
      else
        let fpA := (rowFor rows a).fairplay
        let fpB := (rowFor rows b).fairplay
        if fpA ≠ fpB then (if fpA < fpB then -1 else 1)
        else if a < b then -1 else if a > b then 1 else 0

/-- Model of the rank-column insert (line 359): attach 1-based ranks. -/
def withRanks (start : Nat) : List StandingRow → List (Nat × StandingRow)
  | [] => []
  | r :: rs => (start, r) :: withRanks (start + 1) rs

/-- The tail of `compute_standings` after the input guards: accumulate the
played matches, build one row per team, sort the team ids by the
comparator and re-index the rows in that order, then attach ranks. -/
def standingsOfPlayed (teams : TeamsTable) (played : List PlayedM)
    (events : List EventRow) : List (Nat × StandingRow) :=
  let acc := played.foldl applyMatch ⟨fun _ => 0, fun _ => Stats.zero⟩
  let fair := compute_fairplay events
  let rows := buildRows teams acc fair
  if rows.isEmpty then []
  else
    let ids := rows.map (fun r => r.teamId)
    let order := List.insertionSort (fun x y => cmpTeams played rows x y ≤ 0) ids
    withRanks 1 (order.map (rowFor rows))

/-- Model of `compute_standings` (lines 131-361): guards for empty inputs and for
the required match columns, then the standings pipeline. -/
def compute_standings (teams : TeamsTable) (mtab : MatchesTable)
    (events : List EventRow) : List (Nat × StandingRow) :=
  if teams.rows.isEmpty || mtab.rows.isEmpty then []
  else if !mtab.hasRequired then []
  else standingsOfPlayed teams (playedOf mtab) events

/-! ## The tie-break precedence written from the specification text

The following comparator restates, word by word, the precedence the
specification claims for any two teams A and B: the head-to-head
mini-table over the played matches directly between A and B (mini points,
then mini goal difference, then mini goals-for), then season goal
difference, then season goals-for, then fair-play (lower first), then the
team id ascending.  It is compared against the comparator `cmpTeams`
translated from the source. -/

/-- Goals scored by `t` in a mini-table match (home or away perspective). -/
def gfIn (t : String) (m : PlayedM) : Int :=
  if m.h = t then m.hg else m.ag

/-- Goals conceded by `t` in a mini-table match. -/
def gaIn (t : String) (m : PlayedM) : Int :=
  if m.h = t then m.ag else m.hg

/-- League points earned by `t` in one mini-table match (3/1/0). -/
def ptsIn (t : String) (m : PlayedM) : Int :=
  if gfIn t m > gaIn t m then 3 else if gfIn t m < gaIn t m then 0 else 1

/-- The played matches directly between `a` and `b`. -/
def betweenMatches (mh2h : List PlayedM) (a b : String) : List PlayedM :=
  mh2h.filter (fun m => (m.h == a && m.a == b) || (m.h == b && m.a == a))

/-- Mini-table points of `a` against `b`. -/
def miniPts (mh2h : List PlayedM) (a b : String) : Int :=
  ((betweenMatches mh2h a b).map (ptsIn a)).sum

/-- Mini-table goal difference of `a` against `b`. -/
def miniGD (mh2h : List PlayedM) (a b : String) : Int :=
  ((betweenMatches mh2h a b).map (fun m => gfIn a m - gaIn a m)).sum

/-- Mini-table goals-for of `a` against `b`. -/
def miniGF (mh2h : List PlayedM) (a b : String) : Int :=
  ((betweenMatches mh2h a b).map (gfIn a)).sum

/-- The pairwise precedence exactly as the specification states it:
`-1` ranks `a` above `b`, `1` below, `0` only for identical standing. -/
def cmpSpec (mh2h : List PlayedM) (rows : List StandingRow) (a b : String) : Int :=
  if miniPts mh2h a b > miniPts mh2h b a then -1
  else if miniPts mh2h b a > miniPts mh2h a b then 1
  else if miniGD mh2h a b > miniGD mh2h b a then -1
  else if miniGD mh2h b a > miniGD mh2h a b then 1
  else if miniGF mh2h a b > miniGF mh2h b a then -1
  else if miniGF mh2h b a > miniGF mh2h a b then 1
  else if (rowFor rows a).GD > (rowFor rows b).GD then -1
  else if (rowFor rows b).GD > (rowFor rows a).GD then 1
  else if (rowFor rows a).GF > (rowFor rows b).GF then -1
  else if (rowFor rows b).GF > (rowFor rows a).GF then 1
  else if (rowFor rows a).fairplay < (rowFor rows b).fairplay then -1
  else if (rowFor rows b).fairplay < (rowFor rows a).fairplay then 1
  else if a < b then -1
  else if a > b then 1
  else 0

/-! ## Card fines (statistics tab, src/app.py lines 1192-1227) -/

/-- Event-type literals of the card/fine table. -/
def etYellow : String := "yellow"

def etSecondYellow : String := "second_yellow"

def etRed : String := "red"

def etYPR : String := "yellow_plus_direct_red"

/-- Model of `card_types` of line 1193 (raw `event_type` values, no normalization). -/
def cardTypes : List String := [etYellow, etRed, etSecondYellow, etYPR]

/-- Fine schedule constants of lines 1208-1214 (Vietnamese đồng). -/
def FINE_YELLOW : Nat := 200000

def FINE_SECOND_YELLOW : Nat := 300000

def FINE_RED : Nat := 500000

def FINE_YPR : Nat := 700000

/-- Model of `cards`: the event rows whose `event_type` is a card type (line 1194). -/
def cardsOf (events : List EventRow) : List EventRow :=
  events.filter (fun e => cardTypes.contains e.event_type)

/-- One cell of the card pivot table (line 1197-1201): the number of card
events of type `ct` for player `pid`; a missing pivot column reads as 0. -/
def countCards (events : List EventRow) (pid ct : String) : Nat :=
  ((cardsOf events).filter (fun e => e.player_id == pid && e.event_type == ct)).length

/-- The per-player fine of lines 1222-1227. -/
def fineTotal (events : List EventRow) (pid : String) : Nat :=
  countCards events pid etYellow * FINE_YELLOW
  + countCards events pid etSecondYellow * FINE_SECOND_YELLOW
  + countCards events pid etRed * FINE_RED
  + countCards events pid etYPR * FINE_YPR

/-! ## Knockout slot resolution (src/app.py lines 925-952) -/

/-- Model of `name_map` (line 622): team id to team name, later rows winning as in
a Python dict comprehension; `none` models a missing key. -/
def name_map (tdf : List TeamRow) : String → Option String :=
  tdf.foldl
    (fun nm t => fun k => if k = t.team_id then some t.team_name else nm k)
    (fun _ => none)

/-- Model of `win_by_match` and `lose_by_match` (lines 926-940): for every match
with a non-empty id, two present integer goals and no draw, record the
winner and loser display names (team name when known, else the raw id). -/
def winLoseMaps (nm : String → Option String) (mrows : List MatchRow) :
    (String → Option String) × (String → Option String) :=
  mrows.foldl
    (fun wl r =>
      let mid := pyStrip r.match_id
      match r.home_goals, r.away_goals with
      | some hg, some ag =>
        if mid = "" ∨ hg = ag then wl
        else
          let hname := (nm r.home_team_id).getD r.home_team_id
          let aname := (nm r.away_team_id).getD r.away_team_id
          if hg > ag then
            (fun k => if k = mid then some hname else wl.1 k,
             fun k => if k = mid then some aname else wl.2 k)
          else
            (fun k => if k = mid then some aname else wl.1 k,
             fun k => if k = mid then some hname else wl.2 k)
      | _, _ => wl)
    (fun _ => none, fun _ => none)

/-- The literal prefixes tested by `resolve_slot`. -/
def winnerKey : String := "WINNER "

def loserKey : String := "LOSER "

/-- The group-position shape test of line 946: two or three characters,
a letter followed by digits. -/
def isGroupCode (S : String) : Bool :=
  (S.data.length == 2 || S.data.length == 3) &&
  (match S.data with
   | c :: rest => c.isAlpha && !rest.isEmpty && rest.all Char.isDigit
   | [] => false)

/-- Model of `resolve_slot` (lines 942-952): strip, test for a group-position code,
then for a winner/loser reference whose match id is the last word; an
unknown reference falls back to the raw symbolic text. -/
def resolve_slot (slotToTeam win lose : String → Option String) (s0 : String) : String :=
  let s := pyStrip s0
  if s = "" then ""
  else
    let S := pyUpper s
    if isGroupCode S then (slotToTeam S).getD s
    else if winnerKey.data.isPrefixOf S.data then
      (win ((pyWords s).getLastD s)).getD s
    else if loserKey.data.isPrefixOf S.data then
      (lose ((pyWords s).getLastD s)).getD s
    else s

/-! ## Google-Drive link normalization (src/app.py lines 420-446) -/

/-- The substrings tested by the normalizer. -/
def driveHost : String := "drive.google.com"

def patFileD : String := "/file/d/"

def patOpenId : String := "open?id="

def patUcId : String := "uc?id="

def patExportView : String := "export=view"

/-- The rewritten direct-thumbnail form at the fixed 128x128 size hint. -/
def thumbUrl (fid : String) : String :=
  "https://drive.google.com/thumbnail?id=" ++ fid ++ "&sz=w128-h128"

/-- Model of `_normalize_drive_url` (lines 420-446): strip the input; inside a
`drive.google.com` link extract the file id after `/file/d/` (up to the
next slash), else after `open?id=` or `uc?id=` without `export=view`
(up to the next ampersand), and rewrite to the thumbnail form; every
other input passes through (stripped).  The `try` bodies cannot raise:
a successful substring test guarantees the split has a second part. -/
def normalize_drive_url (u0 : String) : String :=
  let u := pyStrip u0
  if u = "" then ""
  else if pyIn driveHost u then
    if pyIn patFileD u then
      thumbUrl ⟨upToChar '/' ((subAfter patFileD.data u.data).getD [])⟩
    else if pyIn patOpenId u then
      thumbUrl ⟨upToChar '&' ((subAfter patOpenId.data u.data).getD [])⟩
    else if pyIn patUcId u && !pyIn patExportView u then
      thumbUrl ⟨upToChar '&' ((subAfter patUcId.data u.data).getD [])⟩
    else u
  else u

/-! ## Worksheet loading (src/app.py lines 89-101)

`load_worksheet_df` wraps the whole fetch, including `open_by_key` on the
spreadsheet itself, in one `try`; `except Exception` catches every
failure, emits a non-fatal `st.info` notice naming the worksheet, and
returns an empty DataFrame.  Nothing re-raises and nothing stops the
render.  The outcome of the remote calls is abstracted as `WsOutcome`. -/

/-- Outcome of the remote calls inside the `try` block: success with
records, or an exception raised while opening the spreadsheet
(`open_by_key`), locating the worksheet, or reading the records. -/
inductive WsOutcome where
  | ok (records : List (List String))
  | openError (msg : String)
  | worksheetError (msg : String)
  | readError (msg : String)
  deriving Repr, DecidableEq

/-- Observable result of `load_worksheet_df`: the returned table, the
worksheet named by an `st.info` notice when one is emitted, and whether
the call halts rendering (propagates an exception or calls `st.stop`). -/
structure WsLoad where
  table : List (List String)
  noticeWorksheet : Option String
  halts : Bool
  deriving Repr, DecidableEq

/-- Model of `load_worksheet_df` (lines 89-101). -/
def load_worksheet_df (wsName : String) : WsOutcome → WsLoad
  | .ok records => ⟨records, none, false⟩
  | .openError _ => ⟨[], some wsName, false⟩
  | .worksheetError _ => ⟨[], some wsName, false⟩
  | .readError _ => ⟨[], some wsName, false⟩

/-! ## Claim-side helper definitions -/

/-- The stripped, non-empty team ids of the teams table: the teams the
specification says must each get exactly one output row. -/
def validIds (teams : TeamsTable) : List String :=
  teams.rows.filterMap (fun tr =>
    if pyStrip tr.team_id = "" then none else some (pyStrip tr.team_id))

/-- The (stripped) team ids that take part in some played match. -/
def playedTeams (played : List PlayedM) : List String :=
  played.map PlayedM.h ++ played.map PlayedM.a

/-! ## Concrete example data used by the claims -/

/-- Three teams; T2 collects six season points, T1 only three, but T1 won
the direct match against T2, so head-to-head puts T1 first. -/
def c1Teams : TeamsTable :=
  ⟨true, true, [⟨"T1", "Team One", ""⟩, ⟨"T2", "Team Two", ""⟩, ⟨"T3", "Team Three", ""⟩]⟩

def c1Matches : MatchesTable :=
  ⟨true, true,
   [⟨"T1", "T2", some 2, some 0, "finished", "M1"⟩,
    ⟨"T2", "T3", some 1, some 0, "finished", "M2"⟩,
    ⟨"T3", "T2", some 0, some 1, "Kết Thúc", "M3"⟩]⟩

def c2Teams : TeamsTable :=
  ⟨true, true, [⟨"H", "Home", ""⟩, ⟨"A", "Away", ""⟩]⟩

def c2Rows : List MatchRow :=
  [⟨"H", "A", some 1, some 1, "finished", "M1"⟩]

/-- A scheduled match with both goal cells absent. -/
def c2Unplayed : MatchRow :=
  ⟨"H", "A", none, none, "scheduled", "M2"⟩

def c3Teams : TeamsTable :=
  ⟨true, true, [⟨"H", "Home", ""⟩, ⟨"A", "Away", ""⟩]⟩

def c3Matches : MatchesTable :=
  ⟨true, true, [⟨"H", "A", some 2, some 1, "finished", "M1"⟩]⟩

/-- A non-empty teams table with a valid team id. -/
def c4Teams : TeamsTable := ⟨true, true, [⟨"T1", "Team One", ""⟩]⟩

/-- An empty matches table. -/
def c4NoMatches : MatchesTable := ⟨true, true, []⟩

def c4wTeams : TeamsTable :=
  ⟨true, true, [⟨"X1", "Xray", ""⟩, ⟨"X2", "Yankee", ""⟩]⟩

def c4wMatches : MatchesTable :=
  ⟨true, true, [⟨"X1", "X2", some 3, some 0, "ft", "K1"⟩]⟩

def c6Events : List EventRow :=
  [⟨"T1", "yellow", "P1", "M1"⟩,
   ⟨"T1", "yellow", "P1", "M2"⟩,
   ⟨"T1", "second_yellow", "P1", "M3"⟩]

def c7Teams : List TeamRow :=
  [⟨"H", "Hanoi FC", ""⟩, ⟨"A", "An Giang", ""⟩]

def c7Matches : List MatchRow :=
  [⟨"H", "A", some 3, some 1, "finished", "M1"⟩,
   ⟨"H", "A", some 2, some 2, "finished", "M2"⟩,
   ⟨"H", "A", none, none, "scheduled", "M3"⟩]

/-- The winner/loser maps the knockout tab builds from `c7Matches`. -/
def c7wl : (String → Option String) × (String → Option String) :=
  winLoseMaps (name_map c7Teams) c7Matches

/-- A URL that contains `/file/d/<ID>/` but is not a Drive link. -/
def c8NonDrive : String := "https://example.com/file/d/ABC123/view"

def c8Thumb : String := "https://drive.google.com/thumbnail?id=ABC123&sz=w128-h128"

def c8FileD : String := "https://drive.google.com/file/d/FID123/view?usp=sharing"

def c8FileDThumb : String := "https://drive.google.com/thumbnail?id=FID123&sz=w128-h128"

def c8Open : String := "https://drive.google.com/open?id=FID456&usp=sharing"

def c8OpenThumb : String := "https://drive.google.com/thumbnail?id=FID456&sz=w128-h128"

def c8Uc : String := "https://drive.google.com/uc?id=FID789"

def c8UcThumb : String := "https://drive.google.com/thumbnail?id=FID789&sz=w128-h128"

def c8UcExport : String := "https://drive.google.com/uc?id=FID789&export=view"

def c8Plain : String := "https://example.org/logo.png"

def c9Ws : String := "teams"

def c9Msg : String := "SpreadsheetNotFound"

def cSlotWinM1 : String := "WINNER M1"

def cSlotLoseM1 : String := "LOSER M1"

def cSlotWinM2 : String := "WINNER M2"

def cSlotLoseM2 : String := "LOSER M2"

def cSlotWinM3 : String := "WINNER M3"

def cSlotLoseM3 : String := "LOSER M3"

/-! ## Claim theorems -/

/-- Claim C10: for every teams table, if the matches table is empty (or
absent), or the teams table is empty, or a required match column is
missing, `compute_standings` returns an entirely empty table, producing
no per-team zero rows even for a non-empty teams table. -/
theorem C10_empty_input_guards (teams : TeamsTable) (mtab : MatchesTable)
    (events : List EventRow)
    (h : mtab.rows = [] ∨ teams.rows = [] ∨ mtab.hasRequired = false) :
    compute_standings teams mtab events = [] := by
  rcases h with h | h | h
  · simp [compute_standings, h]
  · simp [compute_standings, h]
  · simp only [compute_standings, h]
    split
    · rfl
    · simp

theorem C10_empty_input_guards_witness :
    compute_standings c4Teams c4NoMatches [] = [] :=
  C10_empty_input_guards c4Teams c4NoMatches [] (Or.inl rfl)

/-- Claim C9, counterexample: when opening the spreadsheet itself fails
(`open_by_key` raises, e.g. spreadsheet not found), `load_worksheet_df`
does not abort or halt rendering, and it degrades to an empty table with
a notice — contradicting the claimed fatal behaviour. -/
theorem C9_counterexample_open_failure_not_fatal :
    (load_worksheet_df c9Ws (WsOutcome.openError c9Msg)).halts = false
    ∧ (load_worksheet_df c9Ws (WsOutcome.openError c9Msg)).table = [] := by
  exact ⟨rfl, rfl⟩

/-- Claim C9, amended: every failure inside `load_worksheet_df` — a
spreadsheet-open failure exactly like a worksheet-scoped one — is
non-fatal: the call returns an empty table together with a notice naming
the worksheet, and never halts rendering. -/
theorem C9_amended_all_failures_degrade (ws msg : String) :
    (∀ o : WsOutcome, (load_worksheet_df ws o).halts = false)
    ∧ load_worksheet_df ws (WsOutcome.openError msg) = ⟨[], some ws, false⟩
    ∧ load_worksheet_df ws (WsOutcome.worksheetError msg) = ⟨[], some ws, false⟩
    ∧ load_worksheet_df ws (WsOutcome.readError msg) = ⟨[], some ws, false⟩ := by
  refine ⟨fun o => ?_, rfl, rfl, rfl⟩
  cases o <;> rfl

/-- Claim C8, counterexample: `c8NonDrive` contains `/file/d/ABC123/`,
so the claim says it is rewritten to the thumbnail form, but the code
only rewrites links that also contain `drive.google.com` and returns
this one unchanged. -/
theorem C8_counterexample_non_drive_host :
    normalize_drive_url c8NonDrive = c8NonDrive
    ∧ normalize_drive_url c8NonDrive ≠ c8Thumb := by
  exact ⟨by decide, by decide⟩

/-- Claim C8, amended: the normalizer first strips the input; only a link
containing `drive.google.com` is rewritten — via `/file/d/<ID>` (ID up to
the next slash), else `open?id=<ID>`, else `uc?id=<ID>` without
`export=view` (ID up to the next ampersand) — to the direct-thumbnail
form with the same ID; every other input is returned (stripped)
unchanged. -/
theorem C8_amended_drive_normalization :
    (∀ u : String, pyIn driveHost (pyStrip u) = false →
        normalize_drive_url u = pyStrip u)
    ∧ normalize_drive_url c8FileD = c8FileDThumb
    ∧ normalize_drive_url c8Open = c8OpenThumb
    ∧ normalize_drive_url c8Uc = c8UcThumb
    ∧ normalize_drive_url c8UcExport = c8UcExport
    ∧ normalize_drive_url c8Plain = c8Plain := by
  refine ⟨fun u h => ?_, by decide, by decide, by decide, by decide, by decide⟩
  by_cases h0 : pyStrip u = ""
  · simp [normalize_drive_url, h0]
  · simp [normalize_drive_url, h0, h]

theorem C8_amended_drive_normalization_witness :
    normalize_drive_url c8Plain = pyStrip c8Plain :=
  C8_amended_drive_normalization.1 c8Plain (by decide)

/-- Claim C7: with a finished 3-1 match M1, `WINNER M1` resolves to the
home display name and `LOSER M1` to the away display name; for the drawn
match M2 and the resultless match M3 both references resolve to nothing
and the raw symbolic text is returned. -/
theorem C7_winner_loser_resolution :
    resolve_slot (fun _ => none) c7wl.1 c7wl.2 cSlotWinM1 = "Hanoi FC"
    ∧ resolve_slot (fun _ => none) c7wl.1 c7wl.2 cSlotLoseM1 = "An Giang"
    ∧ resolve_slot (fun _ => none) c7wl.1 c7wl.2 cSlotWinM2 = cSlotWinM2
    ∧ resolve_slot (fun _ => none) c7wl.1 c7wl.2 cSlotLoseM2 = cSlotLoseM2
    ∧ resolve_slot (fun _ => none) c7wl.1 c7wl.2 cSlotWinM3 = cSlotWinM3
    ∧ resolve_slot (fun _ => none) c7wl.1 c7wl.2 cSlotLoseM3 = cSlotLoseM3 := by
  refine ⟨?_, ?_, ?_, ?_, ?_, ?_⟩ <;> decide

/-- Claim C5: `compute_fairplay` scores events with the schedule
yellow 1, second_yellow 3, red 3, yellow_plus_direct_red 4,
regardless of match status (it never reads the matches table), and
appending one red event for team X increases the total of X (its
stripped id) by exactly 3 while every other team total is unchanged. -/
theorem C5_fairplay_red_monotonicity :
    (fairplayAdd etYellow = 1 ∧ fairplayAdd etSecondYellow = 3
      ∧ fairplayAdd etRed = 3 ∧ fairplayAdd etYPR = 4)
    ∧ (∀ (events : List EventRow) (x pid mid : String), pyStrip x ≠ "" →
        compute_fairplay (events ++ [⟨x, etRed, pid, mid⟩]) (pyStrip x)
            = compute_fairplay events (pyStrip x) + 3
        ∧ ∀ t, t ≠ pyStrip x →
            compute_fairplay (events ++ [⟨x, etRed, pid, mid⟩]) t
              = compute_fairplay events t) := by
  refine ⟨⟨by decide, by decide, by decide, by decide⟩, ?_⟩
  intro events x pid mid hx
  have hred : fairplayAdd (pyLower (pyStrip etRed)) = 3 := by decide
  constructor
  · simp only [compute_fairplay, List.foldl_append, List.foldl_cons, List.foldl_nil]
    simp [hx, hred]
  · intro t ht
    simp only [compute_fairplay, List.foldl_append, List.foldl_cons, List.foldl_nil]
    simp [hx, ht]

theorem C5_fairplay_red_monotonicity_witness :
    compute_fairplay ([] ++ [⟨"T1", etRed, "P9", "M9"⟩]) (pyStrip "T1")
      = compute_fairplay [] (pyStrip "T1") + 3 :=
  (C5_fairplay_red_monotonicity.2 [] "T1" "P9" "M9" (by decide)).1

/-- Claim C6: the fine computation charges, per player, the card counts
times 200000 / 300000 / 500000 / 700000 for yellow, second_yellow, red
and yellow_plus_direct_red respectively, in integer arithmetic with
missing card-type columns read as zero; a player with two yellow events
and one second_yellow event owes exactly 700000. -/
theorem C6_fine_schedule :
    (∀ (events : List EventRow) (pid : String),
        fineTotal events pid
          = (events.filter (fun e => e.player_id == pid && e.event_type == etYellow)).length
              * FINE_YELLOW
            + (events.filter (fun e => e.player_id == pid && e.event_type == etSecondYellow)).length
              * FINE_SECOND_YELLOW
            + (events.filter (fun e => e.player_id == pid && e.event_type == etRed)).length
              * FINE_RED
            + (events.filter (fun e => e.player_id == pid && e.event_type == etYPR)).length
              * FINE_YPR)
    ∧ fineTotal c6Events "P1" = 700000 := by
  refine ⟨fun events pid => ?_, by decide⟩
  have key : ∀ ct : String, cardTypes.contains ct = true →
      countCards events pid ct
        = (events.filter (fun e => e.player_id == pid && e.event_type == ct)).length := by
    intro ct hct
    unfold countCards cardsOf
    rw [List.filter_filter]
    apply congrArg List.length
    apply List.filter_congr
    intro e _
    by_cases he : e.event_type = ct
    · have hmem : ct ∈ cardTypes := by simpa using hct
      simp [he, hmem]
    · simp [he]
  unfold fineTotal
  rw [key etYellow (by decide), key etSecondYellow (by decide),
    key etRed (by decide), key etYPR (by decide)]

/-- Claim C2: a match is played iff its trimmed, lowercased status is in
the finished set and both goals parse (with no status column, iff both
goals parse); a match failing the test — in particular one with both
goals absent, which is never a 0-0 draw — contributes nothing: appending
it to the matches table leaves the standings output unchanged. -/
theorem C2_played_match_gating :
    (∀ m : MatchRow, isPlayed true m = true ↔
        (pyLower (pyStrip m.status) ∈ FINISHED
          ∧ m.home_goals.isSome = true ∧ m.away_goals.isSome = true))
    ∧ (∀ m : MatchRow, isPlayed false m = true ↔
        (m.home_goals.isSome = true ∧ m.away_goals.isSome = true))
    ∧ (∀ (hs : Bool) (m : MatchRow), m.home_goals = none → isPlayed hs m = false)
    ∧ (∀ (teams : TeamsTable) (hs hr : Bool) (rows : List MatchRow)
        (events : List EventRow) (m : MatchRow),
        isPlayed hs m = false → rows ≠ [] →
        compute_standings teams ⟨hs, hr, rows ++ [m]⟩ events
          = compute_standings teams ⟨hs, hr, rows⟩ events) := by
  refine ⟨?_, ?_, ?_, ?_⟩
  · intro m
    simp [isPlayed, and_assoc]
  · intro m
    simp [isPlayed, and_assoc]
  · intro hs m h
    simp [isPlayed, h]
  · intro teams hs hr rows events m hm hrows
    have h1 : rows.isEmpty = false := by
      cases rows with
      | nil => exact absurd rfl hrows
      | cons a l => rfl
    have h2 : (rows ++ [m]).isEmpty = false := by
      cases rows <;> rfl
    have hplayed : playedOf ⟨hs, hr, rows ++ [m]⟩ = playedOf ⟨hs, hr, rows⟩ := by
      simp [playedOf, List.filter_append, hm]
    simp only [compute_standings, hplayed, h1, h2]

theorem C2_played_match_gating_witness :
    isPlayed true c2Unplayed = false
    ∧ compute_standings c2Teams ⟨true, true, c2Rows ++ [c2Unplayed]⟩ []
        = compute_standings c2Teams ⟨true, true, c2Rows⟩ [] :=
  ⟨C2_played_match_gating.2.2.1 true c2Unplayed rfl,
   C2_played_match_gating.2.2.2 c2Teams true true c2Rows [] c2Unplayed
     (C2_played_match_gating.2.2.1 true c2Unplayed rfl) (by decide)⟩

/-- Claim C3: for a played 2-1 match the home side gains 3 points, 1 win,
GF 2, GA 1, GD 1 and the away side 0 points, 1 loss, GF 1, GA 2, GD -1;
in general each accumulated match awards 3/1/0 points (win/draw/loss) and
increments the played and goal counters of both sides. -/
theorem C3_points_arithmetic :
    (∀ (acc : Acc) (m : PlayedM), m.h ≠ m.a →
        (applyMatch acc m).points m.h
            = acc.points m.h + (if m.hg > m.ag then 3 else if m.ag > m.hg then 0 else 1)
        ∧ (applyMatch acc m).points m.a
            = acc.points m.a + (if m.ag > m.hg then 3 else if m.hg > m.ag then 0 else 1)
        ∧ ((applyMatch acc m).stats m.h).P = (acc.stats m.h).P + 1
        ∧ ((applyMatch acc m).stats m.a).P = (acc.stats m.a).P + 1
        ∧ ((applyMatch acc m).stats m.h).GF = (acc.stats m.h).GF + m.hg
        ∧ ((applyMatch acc m).stats m.h).GA = (acc.stats m.h).GA + m.ag
        ∧ ((applyMatch acc m).stats m.a).GF = (acc.stats m.a).GF + m.ag
        ∧ ((applyMatch acc m).stats m.a).GA = (acc.stats m.a).GA + m.hg)
    ∧ compute_standings c3Teams c3Matches []
        = [(1, ⟨"H", "Home", 1, 1, 0, 0, 2, 1, 1, 3, 0⟩),
           (2, ⟨"A", "Away", 1, 0, 0, 1, 1, 2, -1, 0, 0⟩)] := by
  refine ⟨fun acc m hne => ?_, by decide⟩
  have hne' : m.a ≠ m.h := Ne.symm hne
  simp only [applyMatch]
  split_ifs <;> simp [upd, updP, hne, hne'] <;> omega

theorem C3_points_arithmetic_witness :
    (applyMatch ⟨fun _ => 0, fun _ => Stats.zero⟩ ⟨"H", "A", 2, 1⟩).points "H" = 3 := by
  have h := (C3_points_arithmetic.1 ⟨fun _ => 0, fun _ => Stats.zero⟩
    ⟨"H", "A", 2, 1⟩ (by decide)).1
  simpa using h

/-- The head-to-head fold of `head_to_head` computes, componentwise, the
mini-table sums of the specification, provided every folded match really
is a match between the two (distinct) teams. -/
theorem h2h_foldl_sum (t1 t2 : String) (hne : t1 ≠ t2) :
    ∀ (l : List PlayedM) (acc : H2HAcc),
      (∀ m ∈ l, (m.h = t1 ∧ m.a = t2) ∨ (m.h = t2 ∧ m.a = t1)) →
      l.foldl (h2hStep t1) acc =
        ⟨acc.pts1 + (l.map (ptsIn t1)).sum,
         acc.pts2 + (l.map (ptsIn t2)).sum,
         acc.gd1 + (l.map (fun m => gfIn t1 m - gaIn t1 m)).sum,
         acc.gd2 + (l.map (fun m => gfIn t2 m - gaIn t2 m)).sum,
         acc.gf1 + (l.map (gfIn t1)).sum,
         acc.gf2 + (l.map (gfIn t2)).sum⟩ := by
  intro l
  induction l with
  | nil => intro acc _; simp
  | cons m ms ih =>
    intro acc hmem
    have hm := hmem m (List.mem_cons_self m ms)
    have hms : ∀ x ∈ ms, (x.h = t1 ∧ x.a = t2) ∨ (x.h = t2 ∧ x.a = t1) :=
      fun x hx => hmem x (List.mem_cons_of_mem m hx)
    rw [List.foldl_cons, ih (h2hStep t1 acc m) hms]
    rcases hm with ⟨hh, _⟩ | ⟨hh, ha⟩
    · have hh2 : m.h ≠ t2 := by rw [hh]; exact hne
      simp only [h2hStep, ptsIn, gfIn, gaIn, hh, hh2, hne, ite_true, ite_false,
        List.map_cons, List.sum_cons, H2HAcc.mk.injEq]
      split_ifs <;> omega
    · have hh1 : m.h ≠ t1 := by rw [hh]; exact Ne.symm hne
      have hne' : t2 ≠ t1 := Ne.symm hne
      simp only [h2hStep, ptsIn, gfIn, gaIn, hh, hh1, hne', ite_true, ite_false,
        List.map_cons, List.sum_cons, H2HAcc.mk.injEq]
      split_ifs <;> omega

/-- Evaluation lemma: `head_to_head` computes exactly the mini-table cascade of the
specification: mini points, then mini goal difference, then mini
goals-for, for two distinct teams. -/
theorem head_to_head_eval (mh2h : List PlayedM) (a b : String) (hne : a ≠ b) :
    head_to_head mh2h a b =
      (if miniPts mh2h a b ≠ miniPts mh2h b a then
        (if miniPts mh2h a b > miniPts mh2h b a then 1 else -1)
      else if miniGD mh2h a b ≠ miniGD mh2h b a then
        (if miniGD mh2h a b > miniGD mh2h b a then 1 else -1)
      else if miniGF mh2h a b ≠ miniGF mh2h b a then
        (if miniGF mh2h a b > miniGF mh2h b a then 1 else -1)
      else 0) := by
  have hcomm : mh2h.filter (fun m => (m.h == b && m.a == a) || (m.h == a && m.a == b))
      = mh2h.filter (fun m => (m.h == a && m.a == b) || (m.h == b && m.a == a)) :=
    List.filter_congr (fun x _ => Bool.or_comm _ _)
  have hsub_mem : ∀ m ∈ mh2h.filter
      (fun m => (m.h == a && m.a == b) || (m.h == b && m.a == a)),
      (m.h = a ∧ m.a = b) ∨ (m.h = b ∧ m.a = a) := by
    intro m hm
    have h2 := (List.mem_filter.1 hm).2
    simpa using h2
  simp only [miniPts, miniGD, miniGF, betweenMatches, hcomm]
  simp only [head_to_head]
  rw [h2h_foldl_sum a b hne _ _ hsub_mem]
  set sub := mh2h.filter (fun m => (m.h == a && m.a == b) || (m.h == b && m.a == a))
    with hsubdef
  by_cases hempty : sub.isEmpty = true
  · have hnil : sub = [] := List.isEmpty_iff.1 hempty
    rw [hnil]
    simp
  · rw [if_neg hempty]
    dsimp only
    simp only [zero_add]

/-- The season tail of the comparator, over abstract values: the
source shape (dis-equality test, then direction) and the specification
shape (two directed tests) agree. -/
theorem cmp_season_chain_eq (d1 d2 e1 e2 f1 f2 r : Int) :
    (if d1 ≠ d2 then (if d1 > d2 then (-1 : Int) else 1)
     else if e1 ≠ e2 then (if e1 > e2 then -1 else 1)
     else if f1 ≠ f2 then (if f1 < f2 then -1 else 1)
     else r)
    = (if d1 > d2 then -1 else if d2 > d1 then 1
       else if e1 > e2 then -1 else if e2 > e1 then 1
       else if f1 < f2 then -1 else if f2 < f1 then 1
       else r) := by
  split_ifs <;> omega

/-- The outer comparator shape, over abstract values: negating the
head-to-head cascade and falling through to the season tail agrees with
the flat specification chain. -/
theorem cmp_outer_chain_eq (p1 p2 g1 g2 q1 q2 s t : Int) (hst : s = t) :
    (if (if p1 ≠ p2 then (if p1 > p2 then (1 : Int) else -1)
          else if g1 ≠ g2 then (if g1 > g2 then 1 else -1)
          else if q1 ≠ q2 then (if q1 > q2 then 1 else -1)
          else 0) ≠ 0 then
       -(if p1 ≠ p2 then (if p1 > p2 then (1 : Int) else -1)
          else if g1 ≠ g2 then (if g1 > g2 then 1 else -1)
          else if q1 ≠ q2 then (if q1 > q2 then 1 else -1)
          else 0)
     else s)
    = (if p1 > p2 then -1 else if p2 > p1 then 1
       else if g1 > g2 then -1 else if g2 > g1 then 1
       else if q1 > q2 then -1 else if q2 > q1 then 1
       else t) := by
  subst hst
  split_ifs <;> omega

/-- Claim C1: the sort comparator of `compute_standings` realizes, for any
two distinct teams, exactly the claimed precedence — head-to-head mini
points, mini goal difference, mini goals-for over the direct matches,
then season goal difference, season goals-for, fair-play (lower first),
team id ascending — and, concretely, head-to-head overrides a season
league-points difference: T1 (3 points) ranks above T2 (6 points) after
winning the direct match. -/
theorem C1_tiebreak_precedence :
    (∀ (mh2h : List PlayedM) (rows : List StandingRow) (a b : String), a ≠ b →
        cmpTeams mh2h rows a b = cmpSpec mh2h rows a b)
    ∧ (compute_standings c1Teams c1Matches []).map (fun p => (p.1, p.2.teamId, p.2.points))
        = [(1, "T1", 3), (2, "T2", 6), (3, "T3", 0)] := by
  refine ⟨?_, by decide⟩
  intro mh2h rows a b hne
  simp only [cmpTeams, cmpSpec]
  rw [head_to_head_eval mh2h a b hne]
  exact cmp_outer_chain_eq _ _ _ _ _ _ _ _ (cmp_season_chain_eq _ _ _ _ _ _ _)

theorem C1_tiebreak_precedence_witness :
    cmpTeams [] [] "T1" "T2" = cmpSpec [] [] "T1" "T2" :=
  C1_tiebreak_precedence.1 [] [] "T1" "T2" (by decide)

/-! ### Helper lemmas for the output-shape claim -/

theorem withRanks_map_snd : ∀ (s : Nat) (l : List StandingRow),
    (withRanks s l).map Prod.snd = l := by
  intro s l
  induction l generalizing s with
  | nil => rfl
  | cons r rs ih => simp [withRanks, ih]

theorem withRanks_map_fst : ∀ (s : Nat) (l : List StandingRow),
    (withRanks s l).map Prod.fst = List.range' s l.length := by
  intro s l
  induction l generalizing s with
  | nil => rfl
  | cons r rs ih => simp [withRanks, List.range', ih]

theorem withRanks_length (s : Nat) (l : List StandingRow) :
    (withRanks s l).length = l.length := by
  rw [← List.length_map (withRanks s l) Prod.snd, withRanks_map_snd]

theorem filterMap_ext {α β : Type} (f g : α → Option β) (h : ∀ a, f a = g a) :
    ∀ l : List α, l.filterMap f = l.filterMap g := by
  intro l
  induction l with
  | nil => rfl
  | cons x xs ih => simp [List.filterMap_cons, h x, ih]

/-- The team-id column of the built rows is exactly the list of stripped,
non-empty team ids of the input table. -/
theorem buildRows_map_teamId (teams : TeamsTable) (acc : Acc) (fair : String → Int) :
    (buildRows teams acc fair).map (fun r => r.teamId) = validIds teams := by
  unfold buildRows validIds
  rw [List.map_filterMap]
  apply filterMap_ext
  intro tr
  by_cases hc : pyStrip tr.team_id = "" <;> simp [hc]

theorem rowFor_teamId_of_mem (rows : List StandingRow) (tid : String)
    (h : tid ∈ rows.map (fun r => r.teamId)) :
    (rowFor rows tid).teamId = tid := by
  obtain ⟨r, hr, rfl⟩ := List.mem_map.1 h
  unfold rowFor
  cases hfind : rows.find? (fun x => x.teamId == r.teamId) with
  | none =>
    have := List.find?_eq_none.1 hfind r hr
    simp at this
  | some r' =>
    have := List.find?_some hfind
    simpa using this

theorem rowFor_mem_of_mem (rows : List StandingRow) (tid : String)
    (h : tid ∈ rows.map (fun r => r.teamId)) :
    rowFor rows tid ∈ rows := by
  obtain ⟨r, hr, rfl⟩ := List.mem_map.1 h
  unfold rowFor
  cases hfind : rows.find? (fun x => x.teamId == r.teamId) with
  | none =>
    have := List.find?_eq_none.1 hfind r hr
    simp at this
  | some r' =>
    simpa using List.mem_of_find?_eq_some hfind

/-- Locality of `applyMatch`: only the two participating ids change. -/
theorem applyMatch_off (acc : Acc) (m : PlayedM) (t : String)
    (h1 : m.h ≠ t) (h2 : m.a ≠ t) :
    (applyMatch acc m).points t = acc.points t
    ∧ (applyMatch acc m).stats t = acc.stats t := by
  have h1' : t ≠ m.h := Ne.symm h1
  have h2' : t ≠ m.a := Ne.symm h2
  unfold applyMatch
  split_ifs <;> simp [upd, updP, h1', h2']

/-- A team that takes part in no accumulated match keeps the initial
zero points and zero counters. -/
theorem foldl_applyMatch_off (t : String) :
    ∀ (l : List PlayedM) (acc : Acc),
      (∀ m ∈ l, m.h ≠ t ∧ m.a ≠ t) →
      ((l.foldl applyMatch acc).points t = acc.points t
        ∧ (l.foldl applyMatch acc).stats t = acc.stats t) := by
  intro l
  induction l with
  | nil => intro acc _; exact ⟨rfl, rfl⟩
  | cons m ms ih =>
    intro acc hmem
    have hm := hmem m (List.mem_cons_self m ms)
    have hms : ∀ x ∈ ms, x.h ≠ t ∧ x.a ≠ t :=
      fun x hx => hmem x (List.mem_cons_of_mem m hx)
    rw [List.foldl_cons]
    have hstep := applyMatch_off acc m t hm.1 hm.2
    have hrest := ih (applyMatch acc m) hms
    exact ⟨hrest.1.trans hstep.1, hrest.2.trans hstep.2⟩

/-- Every built row comes from a team row with a non-empty stripped id,
and its fields are the looked-up counters of that id. -/
theorem mem_buildRows (teams : TeamsTable) (acc : Acc) (fair : String → Int)
    (r : StandingRow) (h : r ∈ buildRows teams acc fair) :
    ∃ tr ∈ teams.rows, pyStrip tr.team_id ≠ ""
      ∧ r.teamId = pyStrip tr.team_id
      ∧ r.name = displayName teams.hasTeamName teams.hasShortName tr
      ∧ r.P = (acc.stats (pyStrip tr.team_id)).P
      ∧ r.W = (acc.stats (pyStrip tr.team_id)).W
      ∧ r.D = (acc.stats (pyStrip tr.team_id)).D
      ∧ r.L = (acc.stats (pyStrip tr.team_id)).L
      ∧ r.GF = (acc.stats (pyStrip tr.team_id)).GF
      ∧ r.GA = (acc.stats (pyStrip tr.team_id)).GA
      ∧ r.GD = (acc.stats (pyStrip tr.team_id)).GD
      ∧ r.points = acc.points (pyStrip tr.team_id)
      ∧ r.fairplay = fair (pyStrip tr.team_id) := by
  unfold buildRows at h
  obtain ⟨tr, htr, heq⟩ := List.mem_filterMap.1 h
  by_cases hc : pyStrip tr.team_id = ""
  · simp [hc] at heq
  · simp only [hc, ite_false, if_false, Option.some.injEq] at heq
    subst heq
    exact ⟨tr, htr, hc, rfl, rfl, rfl, rfl, rfl, rfl, rfl, rfl, rfl, rfl, rfl⟩

/-- Claim C4, counterexample: a non-empty teams table with the valid team
id T1 but an empty matches table produces an entirely empty output — no
row for T1 at all — so the claim as stated (one output row per valid team
for every non-empty teams table) fails. -/
theorem C4_counterexample_empty_matches :
    ¬ List.Perm ((compute_standings c4Teams c4NoMatches []).map (fun p => p.2.teamId))
        (validIds c4Teams) := by
  decide

/-- Claim C4, amended: when additionally the matches table is non-empty
with its required columns present, and the valid team ids are duplicate
free (the stated invariant), the output of `compute_standings` has
exactly one row per team with a non-empty stripped id (teams with an
empty id are excluded), ranks exactly 1..N in final order, display names
preferring team_name, else short_name, else team_id, and all-zero
counters for teams with zero played matches. -/
theorem C4_output_shape_amended (teams : TeamsTable) (mtab : MatchesTable)
    (events : List EventRow)
    (hteams : teams.rows ≠ []) (hmtab : mtab.rows ≠ [])
    (hreq : mtab.hasRequired = true)
    (hnodup : (validIds teams).Nodup) :
    List.Perm ((compute_standings teams mtab events).map (fun p => p.2.teamId))
        (validIds teams)
    ∧ (compute_standings teams mtab events).map Prod.fst
        = List.range' 1 (compute_standings teams mtab events).length
    ∧ (∀ p ∈ compute_standings teams mtab events, ∃ tr ∈ teams.rows,
        pyStrip tr.team_id = p.2.teamId
        ∧ p.2.name = displayName teams.hasTeamName teams.hasShortName tr)
    ∧ (∀ p ∈ compute_standings teams mtab events,
        p.2.teamId ∉ playedTeams (playedOf mtab) →
        p.2.P = 0 ∧ p.2.W = 0 ∧ p.2.D = 0 ∧ p.2.L = 0
          ∧ p.2.GF = 0 ∧ p.2.GA = 0 ∧ p.2.GD = 0 ∧ p.2.points = 0) := by
  have hT : teams.rows.isEmpty = false := by
    rw [List.isEmpty_eq_false]; exact hteams
  have hM : mtab.rows.isEmpty = false := by
    rw [List.isEmpty_eq_false]; exact hmtab
  have hcs : compute_standings teams mtab events
      = standingsOfPlayed teams (playedOf mtab) events := by
    simp [compute_standings, hT, hM, hreq]
  rw [hcs]
  unfold standingsOfPlayed
  set acc := (playedOf mtab).foldl applyMatch ⟨fun _ => 0, fun _ => Stats.zero⟩ with hacc
  set fair := compute_fairplay events with hfair
  set rows := buildRows teams acc fair with hrowsdef
  have hids_valid : rows.map (fun r => r.teamId) = validIds teams :=
    buildRows_map_teamId teams acc fair
  by_cases hre : rows.isEmpty = true
  · have hrnil : rows = [] := List.isEmpty_iff.1 hre
    have hvalid : validIds teams = [] := by
      rw [← hids_valid, hrnil]; rfl
    rw [if_pos hre]
    simp [hvalid]
  · rw [if_neg hre]
    set order := List.insertionSort
      (fun x y => cmpTeams (playedOf mtab) rows x y ≤ 0) (rows.map fun r => r.teamId)
      with horder
    have hperm : List.Perm order (rows.map fun r => r.teamId) :=
      List.perm_insertionSort _ _
    have hmem_order : ∀ tid ∈ order, tid ∈ rows.map (fun r => r.teamId) :=
      fun tid h => hperm.mem_iff.1 h
    set L := order.map (rowFor rows) with hL
    have hsnd : (withRanks 1 L).map Prod.snd = L := withRanks_map_snd 1 L
    have hproj : L.map (fun r => r.teamId) = order := by
      rw [hL, List.map_map]
      have hpt : ∀ tid ∈ order, ((fun r => r.teamId) ∘ rowFor rows) tid = id tid :=
        fun tid h => rowFor_teamId_of_mem rows tid (hmem_order tid h)
      rw [List.map_congr_left hpt, List.map_id]
    have hPmem : ∀ p ∈ withRanks 1 L, p.2 ∈ rows := by
      intro p hp
      have h1 : p.2 ∈ L := by
        have := List.mem_map_of_mem Prod.snd hp
        rwa [hsnd] at this
      obtain ⟨tid, htid, heq⟩ := List.mem_map.1 (hL ▸ h1)
      rw [← heq]
      exact rowFor_mem_of_mem rows tid (hmem_order tid htid)
    refine ⟨?_, ?_, ?_, ?_⟩
    · have h1 : (withRanks 1 L).map (fun p => p.2.teamId)
          = L.map (fun r => r.teamId) := by
        calc (withRanks 1 L).map (fun p => p.2.teamId)
            = ((withRanks 1 L).map Prod.snd).map (fun r => r.teamId) := by
              rw [List.map_map]; rfl
          _ = L.map (fun r => r.teamId) := by rw [hsnd]
      rw [h1, hproj, ← hids_valid]
      exact hperm
    · rw [withRanks_map_fst, withRanks_length]
    · intro p hp
      obtain ⟨tr, htr, hne, hid, hname, _⟩ :=
        mem_buildRows teams acc fair p.2 (hPmem p hp)
      exact ⟨tr, htr, hid.symm, hname⟩
    · intro p hp hnot
      obtain ⟨tr, htr, hne, hid, hname, hP, hW, hD, hLs, hGF, hGA, hGD, hpts, _⟩ :=
        mem_buildRows teams acc fair p.2 (hPmem p hp)
      have hoff : ∀ m ∈ playedOf mtab, m.h ≠ p.2.teamId ∧ m.a ≠ p.2.teamId := by
        intro m hm
        constructor <;> intro heq <;> apply hnot
        · rw [← heq]
          exact List.mem_append.2 (Or.inl (List.mem_map_of_mem PlayedM.h hm))
        · rw [← heq]
          exact List.mem_append.2 (Or.inr (List.mem_map_of_mem PlayedM.a hm))
      have hfold := foldl_applyMatch_off p.2.teamId (playedOf mtab)
        ⟨fun _ => 0, fun _ => Stats.zero⟩ hoff
      have hstats : acc.stats p.2.teamId = Stats.zero := hfold.2
      have hpoints : acc.points p.2.teamId = 0 := hfold.1
      rw [← hid] at hP hW hD hLs hGF hGA hGD hpts
      rw [hstats] at hP hW hD hLs hGF hGA hGD
      rw [hpoints] at hpts
      exact ⟨hP, hW, hD, hLs, hGF, hGA, hGD, hpts⟩

theorem C4_output_shape_amended_witness :
    List.Perm ((compute_standings c4wTeams c4wMatches []).map (fun p => p.2.teamId))
      (validIds c4wTeams) :=
  (C4_output_shape_amended c4wTeams c4wMatches []
    (by decide) (by decide) rfl (by decide)).1

end ChimNon
